import Mathlib

/-!
Verification of the resume-analyzer backend
(`resume_analyzer_backend/analyzer/views.py`).

The development shallowly embeds the three pieces of logic of the view:

* `AnalyzeResumeView._extract_text_from_resume` (text extraction from
  PDF / DOCX uploads, extension dispatch via `os.path.splitext`),
* the response sanitizer inside `AnalyzeResumeView._get_gemini_analysis`
  (markdown-fence stripping followed by a JSON parse), and
* `AnalyzeResumeView.post` (the request handler).

Strings are modelled as `List Char` and the relevant Python `str`
operations (`find`, `rfind`, `replace`, `strip`, `startswith`, `lower`,
slicing) are given executable definitions that follow CPython semantics.
External libraries (PyPDF2, python-docx, `json.loads`, the Gemini call)
are parameters of the embedded functions: the view only observes their
result values (or the exception they raise), which we pass in explicitly.
-/

/-- Strings as character lists (Python `str`). -/
abbrev Str := List Char

/-- Python `str.isspace` on a single character (the ASCII whitespace
characters recognised by `str.strip()`). -/
def isSpaceCh (c : Char) : Bool :=
  c = ' ' || c = '\t' || c = '\n' || c = '\r' || c = '\x0b' || c = '\x0c'

/-- Python `str.lstrip()`. -/
def lstrip (s : Str) : Str := s.dropWhile isSpaceCh

/-- Python `str.rstrip()`. -/
def rstrip (s : Str) : Str := (s.reverse.dropWhile isSpaceCh).reverse

/-- Python `str.strip()`. -/
def strip (s : Str) : Str := rstrip (lstrip s)

/-- Index of the first occurrence of `pat` in `s`, if any
(the non-negative result of Python `str.find`). -/
def strFind (pat : Str) : Str → Option Nat
  | [] => if pat.isPrefixOf ([] : Str) then some 0 else none
  | c :: rest =>
    if pat.isPrefixOf (c :: rest) then some 0
    else (strFind pat rest).map (· + 1)

/-- Index of the last occurrence of `pat` in `s`, if any
(the non-negative result of Python `str.rfind`); an occurrence of
`pat` starting at `j` in `s` is an occurrence of `pat.reverse`
starting at `s.length - pat.length - j` in `s.reverse`. -/
def strRfind (pat s : Str) : Option Nat :=
  (strFind pat.reverse s.reverse).map (fun i => s.length - pat.length - i)

/-- Python `s.find(pat)` (`-1` when absent). -/
def pyFind (s pat : Str) : Int :=
  match strFind pat s with
  | some n => (n : Int)
  | none => -1

/-- Python `s.rfind(pat)` (`-1` when absent). -/
def pyRfind (s pat : Str) : Int :=
  match strRfind pat s with
  | some n => (n : Int)
  | none => -1

/-- Resolution of one (possibly negative) Python slice endpoint against a
length: negative indices count from the end, and endpoints are clamped
into `[0, len]`. -/
def pySliceIdx (len : Nat) (i : Int) : Nat :=
  if i < 0 then (len + i).toNat else min i.toNat len

/-- Python `s[a:b]`. -/
def pySlice (s : Str) (a b : Int) : Str :=
  (s.take (pySliceIdx s.length b)).drop (pySliceIdx s.length a)

/-- Python `s.replace(pat, rep)` for a non-empty pattern: replaces
non-overlapping occurrences left to right. -/
def replaceList (s pat rep : Str) : Str :=
  if _h : pat = [] then s
  else
    match s with
    | [] => []
    | c :: rest =>
      if pat.isPrefixOf (c :: rest) then
        rep ++ replaceList ((c :: rest).drop pat.length) pat rep
      else
        c :: replaceList rest pat rep
termination_by s.length
decreasing_by
  · simp only [List.length_drop, List.length_cons]
    have : 1 ≤ pat.length := by
      cases pat with
      | nil => exact absurd rfl _h
      | cons p ps => simp
    omega
  · simp

/-- Python `str.lower()` (ASCII case folding suffices for the
extension comparison). -/
def pyLower (s : Str) : Str := s.map Char.toLower

/-- Python `os.path.splitext(p)[1]`: the extension of `p`, i.e. `p[dotIndex:]`
where `dotIndex` is the position of the last dot, provided the last dot
comes after the last path separator and at least one non-dot character
stands between them (leading dots of the basename never start an
extension). -/
def splitextExt (p : Str) : Str :=
  let sepIndex : Int := pyRfind p "/".toList
  let dotIndex : Int := pyRfind p ".".toList
  if sepIndex < dotIndex then
    if (pySlice p (sepIndex + 1) dotIndex).any (fun c => c ≠ '.') then
      p.drop dotIndex.toNat
    else []
  else []

/-- JSON values, the shape of the parsed analysis report
(`AnalysisReport` in the spec). -/
inductive Json where
  | null : Json
  | bool : Bool → Json
  | num : Int → Json
  | str : Str → Json
  | arr : List Json → Json
  | obj : List (Str × Json) → Json

/-- The type of `json.loads`: a JSON text yields a value, anything else
a `json.JSONDecodeError` carrying a message. -/
abbrev JsonLoads := Str → Except Str Json

/-- The opening marker of a JSON-tagged markdown fence. -/
def jsonFence : Str := "```json".toList

/-- The markdown fence marker. -/
def fenceMarker : Str := "```".toList

/-- The sanitizer of `_get_gemini_analysis` (views.py lines 213-228):
strips a leading ```` ```json ```` or generic ```` ``` ```` fence from
the raw model text, slicing to the last closing marker when one lies
after the opening and otherwise deleting every marker occurrence. -/
def sanitizeResponse (t : Str) : Str :=
  if jsonFence.isPrefixOf (strip t) then
    let jsonStart : Int := pyFind t jsonFence + jsonFence.length
    let jsonEnd : Int := pyRfind t fenceMarker
    if jsonStart < jsonEnd then strip (pySlice t jsonStart jsonEnd)
    else strip (replaceList (replaceList t jsonFence []) fenceMarker [])
  else if fenceMarker.isPrefixOf (strip t) then
    let jsonStart : Int := pyFind t fenceMarker + fenceMarker.length
    let jsonEnd : Int := pyRfind t fenceMarker
    if jsonStart < jsonEnd then strip (pySlice t jsonStart jsonEnd)
    else strip (replaceList t fenceMarker [])
  else t

/-- The message of the exception raised at views.py line 236 when the
candidate text fails to parse: it embeds the parser detail `e` and the
first 500 characters of the candidate `c`. -/
def analysisErrorMsg (e c : Str) : Str :=
  "AI response format error: Could not parse AI response as JSON. Details: ".toList
    ++ e ++ ". Raw response start: ".toList ++ pySlice c 0 500 ++ "...".toList

/-- Parsing of the sanitized candidate (views.py lines 230-236): a parse
success is returned as-is, a `JSONDecodeError` is re-raised as the
formatted exception. -/
def parseCandidate (loads : JsonLoads) (c : Str) : Except Str Json :=
  match loads c with
  | .ok v => .ok v
  | .error e => .error (analysisErrorMsg e c)

/-- The body of `_get_gemini_analysis` after the model call: `callResult` is the
outcome of `model.generate_content(prompt).text` (`.error e` when the
call raised, which propagates uncaught), and the raw text is sanitized
and parsed. -/
def getGeminiAnalysis (loads : JsonLoads) (callResult : Except Str Str) :
    Except Str Json :=
  match callResult with
  | .error e => .error e
  | .ok raw => parseCandidate loads (sanitizeResponse raw)

/-- An uploaded file as the extractor sees it: a filename and the bytes
read into the `BytesIO` buffer (bytes modelled as an opaque character
list). -/
structure UploadedFile where
  name : Str
  content : Str

/-- The document-parsing libraries, observed through their results: for
PDF bytes `PdfReader` plus per-page `extract_text` yield the list of
page texts, for DOCX bytes `Document` yields the list of paragraph
texts; `.error` models an exception raised while parsing the bytes. -/
structure DocLibs where
  pdfPages : Str → Except Str (List Str)
  docxParas : Str → Except Str (List Str)

/-- The method `_extract_text_from_resume` (views.py lines 97-125): dispatch on the
lowercased filename extension; accumulate page texts (non-empty ones
followed by a newline) for `.pdf`, paragraph texts (each followed by a
newline) for `.docx`; return `none` for an unsupported extension or any
parsing exception; strip the accumulated text on success. -/
def extractText (libs : DocLibs) (f : UploadedFile) : Option Str :=
  let ext := pyLower (splitextExt f.name)
  if ext = ".pdf".toList then
    match libs.pdfPages f.content with
    | .error _ => none
    | .ok pages =>
      some (strip (pages.foldl
        (fun acc p => if p ≠ [] then acc ++ p ++ ['\n'] else acc) []))
  else if ext = ".docx".toList then
    match libs.docxParas f.content with
    | .error _ => none
    | .ok paras =>
      some (strip (paras.foldl (fun acc p => acc ++ p ++ ['\n']) []))
  else none

/-- The request data `post` reads: the optional `resume_file` upload and
the form fields with their defaults applied by `request.data.get`. -/
structure AnalyzeRequest where
  resume_file : Option UploadedFile
  job_description : Option Str
  job_category : Option Str
  specific_role : Option Str

/-- HTTP status classes used by the view. -/
inductive HttpStatus where
  | s200 : HttpStatus
  | s400 : HttpStatus
  | s500 : HttpStatus

/-- The JSON body and status of a DRF `Response` built by `post`. -/
structure ApiResponse where
  success : Bool
  message : Str
  report : Option Json
  status : HttpStatus

/-- Response for a missing `resume_file` (views.py lines 56-61). -/
def noFileResp : ApiResponse :=
  { success := false
    message := "No resume file provided. Please upload a PDF or DOCX.".toList
    report := none
    status := .s400 }

/-- Response when extraction fails (views.py lines 72-77). -/
def extractFailResp : ApiResponse :=
  { success := false
    message := ("Could not extract text from resume file. "
      ++ "Please ensure it\x27s a valid PDF or DOCX and not scanned image.").toList
    report := none
    status := .s400 }

/-- The 500 response of the handler (views.py lines 89-95), embedding
the stringified exception. -/
def analysisFailResp (e : Str) : ApiResponse :=
  { success := false
    message := "An error occurred during analysis: ".toList ++ e
      ++ ". Check server logs for details.".toList
    report := none
    status := .s500 }

/-- The 200 response of the handler (views.py lines 85-88). -/
def successResp (report : Json) : ApiResponse :=
  { success := true
    message := "Analysis complete.".toList
    report := some report
    status := .s200 }

/-- The handler `AnalyzeResumeView.post` (views.py lines 51-95): missing file is a
400; an extraction result that is falsy in Python (`None` or the empty
string) is a 400; then the Gemini analysis runs inside `try`, any
exception yielding the 500 response and a parsed report the 200
response. -/
def postHandler (loads : JsonLoads) (libs : DocLibs)
    (callResult : Except Str Str) (req : AnalyzeRequest) : ApiResponse :=
  match req.resume_file with
  | none => noFileResp
  | some f =>
    let resumeText := extractText libs f
    if resumeText = none ∨ resumeText = some [] then extractFailResp
    else
      match getGeminiAnalysis loads callResult with
      | .ok report => successResp report
      | .error e => analysisFailResp e

/-! ### Whitespace and `strip` lemmas -/

/-- Every character of `s` is whitespace. -/
def AllWs (s : Str) : Prop := ∀ c ∈ s, isSpaceCh c = true

theorem allWs_newline : AllWs ['\n'] := by
  unfold AllWs
  decide

theorem allWs_reverse {w : Str} (hw : AllWs w) : AllWs w.reverse := by
  intro c hc
  exact hw c (List.mem_reverse.1 hc)

theorem lstrip_ws_append {w : Str} (hw : AllWs w) (s : Str) :
    lstrip (w ++ s) = lstrip s := by
  unfold lstrip
  rw [List.dropWhile_append, List.dropWhile_eq_nil_iff.2 hw]
  rfl

theorem rstrip_ws_append {w : Str} (hw : AllWs w) (s : Str) :
    rstrip (s ++ w) = rstrip s := by
  unfold rstrip
  rw [List.reverse_append, List.dropWhile_append,
    List.dropWhile_eq_nil_iff.2 (allWs_reverse hw)]
  rfl

theorem strip_ws_left {w : Str} (hw : AllWs w) (s : Str) :
    strip (w ++ s) = strip s := by
  unfold strip
  rw [lstrip_ws_append hw]

theorem strip_ws_right {w : Str} (hw : AllWs w) (s : Str) :
    strip (s ++ w) = strip s := by
  unfold strip lstrip
  rw [List.dropWhile_append]
  by_cases h : (List.dropWhile isSpaceCh s).isEmpty
  · rw [if_pos h, List.dropWhile_eq_nil_iff.2 hw, List.isEmpty_iff.1 h]
  · rw [if_neg h]
    exact rstrip_ws_append hw _

theorem strip_frame {w1 w2 : Str} (h1 : AllWs w1) (h2 : AllWs w2) (s : Str) :
    strip (w1 ++ s ++ w2) = strip s := by
  rw [List.append_assoc, strip_ws_left h1, strip_ws_right h2]

theorem strip_decomp (s : Str) :
    ∃ w1 w2, AllWs w1 ∧ AllWs w2 ∧ s = w1 ++ strip s ++ w2 := by
  refine ⟨List.takeWhile isSpaceCh s,
    (List.takeWhile isSpaceCh (lstrip s).reverse).reverse, ?_, ?_, ?_⟩
  · intro c hc
    exact List.mem_takeWhile_imp hc
  · intro c hc
    exact List.mem_takeWhile_imp (List.mem_reverse.1 hc)
  · conv_lhs => rw [← List.takeWhile_append_dropWhile (p := isSpaceCh) (l := s)]
    rw [List.append_assoc]
    congr 1
    show lstrip s = _
    conv_lhs => rw [← List.reverse_reverse (lstrip s),
      ← List.takeWhile_append_dropWhile (p := isSpaceCh) (l := (lstrip s).reverse)]
    rw [List.reverse_append]
    rfl

theorem lstrip_eq_self {s : Str}
    (h : ∀ c, s.head? = some c → isSpaceCh c = false) : lstrip s = s := by
  cases s with
  | nil => rfl
  | cons c cs =>
    unfold lstrip
    rw [List.dropWhile_cons, if_neg]
    simp [h c rfl]

theorem rstrip_eq_self {s : Str}
    (h : ∀ c, s.getLast? = some c → isSpaceCh c = false) : rstrip s = s := by
  unfold rstrip
  rw [show (List.dropWhile isSpaceCh s.reverse) = lstrip s.reverse from rfl,
    lstrip_eq_self, List.reverse_reverse]
  intro c hc
  rw [List.head?_reverse] at hc
  exact h c hc

theorem strip_eq_self {s : Str}
    (hh : ∀ c, s.head? = some c → isSpaceCh c = false)
    (hl : ∀ c, s.getLast? = some c → isSpaceCh c = false) : strip s = s := by
  unfold strip
  rw [lstrip_eq_self hh, rstrip_eq_self hl]

/-- A text of the shape `opening ++ mid ++ fenceMarker` (with a fence
opening at the front) has no strippable edges. -/
theorem strip_fenced {opening : Str} (hop : opening = jsonFence ∨ opening = fenceMarker)
    (mid : Str) :
    strip (opening ++ mid ++ fenceMarker) = opening ++ mid ++ fenceMarker := by
  apply strip_eq_self
  · intro c hc
    have hne : opening ≠ [] := by
      rcases hop with h | h <;> simp [h, jsonFence, fenceMarker]
    rw [List.append_assoc, List.head?_append_of_ne_nil _ hne] at hc
    have he : opening.head? = some opening.head! ∧ isSpaceCh opening.head! = false := by
      rcases hop with h | h <;> rw [h] <;> exact ⟨by decide, by decide⟩
    rw [he.1] at hc
    rw [← Option.some.inj hc]
    exact he.2
  · intro c hc
    have he : fenceMarker.getLast? = some fenceMarker.getLast!
        ∧ isSpaceCh fenceMarker.getLast! = false := ⟨by decide, by decide⟩
    rw [List.getLast?_append, he.1] at hc
    rw [← Option.some.inj hc]
    exact he.2

/-! ### `find` / `rfind` / slicing lemmas -/

theorem strFind_of_pref {pat s : Str} (h : pat.isPrefixOf s = true) :
    strFind pat s = some 0 := by
  cases s with
  | nil => unfold strFind; rw [if_pos h]
  | cons c cs => unfold strFind; rw [if_pos h]

theorem pyFind_of_pref {pat s : Str} (h : pat.isPrefixOf s = true) :
    pyFind s pat = 0 := by
  unfold pyFind
  rw [strFind_of_pref h]
  rfl

theorem strRfind_append_self (a pat : Str) :
    strRfind pat (a ++ pat) = some a.length := by
  unfold strRfind
  have h : pat.reverse.isPrefixOf (a ++ pat).reverse = true := by
    rw [List.reverse_append, List.isPrefixOf_iff_prefix]
    exact List.prefix_append _ _
  rw [strFind_of_pref h]
  simp [List.length_append]

theorem pyRfind_append_self (a pat : Str) :
    pyRfind (a ++ pat) pat = a.length := by
  unfold pyRfind
  rw [strRfind_append_self]

theorem pySlice_middle (a b c : Str) :
    pySlice (a ++ b ++ c) (a.length : Int) ((a.length : Int) + (b.length : Int)) = b := by
  unfold pySlice pySliceIdx
  rw [if_neg (by omega), if_neg (by omega)]
  have hb : ((a.length : Int) + (b.length : Int)).toNat = a.length + b.length := by omega
  have ha : ((a.length : Int)).toNat = a.length := by omega
  rw [hb, ha]
  have hlen : a.length + b.length ≤ (a ++ b ++ c).length := by
    simp [List.length_append]
  rw [min_eq_left hlen, min_eq_left (le_trans (Nat.le_add_right _ _) hlen)]
  rw [show a.length + b.length = (a ++ b).length from (List.length_append _ _).symm,
    List.take_left, List.drop_left]

/-! ### Sanitizer computations on fenced inputs -/

/-- A JSON text wrapped in a ```` ```json ```` fence. -/
def wrapJsonFence (j : Str) : Str :=
  jsonFence ++ ['\n'] ++ j ++ ['\n'] ++ fenceMarker

/-- A JSON text wrapped in a generic ```` ``` ```` fence. -/
def wrapFence (j : Str) : Str :=
  fenceMarker ++ ['\n'] ++ j ++ ['\n'] ++ fenceMarker

theorem wrapJsonFence_assoc (j : Str) :
    wrapJsonFence j = jsonFence ++ (['\n'] ++ j ++ ['\n']) ++ fenceMarker := by
  unfold wrapJsonFence
  simp [List.append_assoc]

theorem wrapFence_assoc (j : Str) :
    wrapFence j = fenceMarker ++ (['\n'] ++ j ++ ['\n']) ++ fenceMarker := by
  unfold wrapFence
  simp [List.append_assoc]

theorem sanitize_wrapJson (j : Str) :
    sanitizeResponse (wrapJsonFence j) = strip j := by
  have hassoc := wrapJsonFence_assoc j
  have hstrip : strip (wrapJsonFence j) = wrapJsonFence j := by
    rw [hassoc]
    exact strip_fenced (Or.inl rfl) _
  have hpref : jsonFence.isPrefixOf (strip (wrapJsonFence j)) = true := by
    rw [hstrip, List.isPrefixOf_iff_prefix, hassoc, List.append_assoc]
    exact List.prefix_append _ _
  have hfind : pyFind (wrapJsonFence j) jsonFence = 0 := by
    apply pyFind_of_pref
    rw [List.isPrefixOf_iff_prefix, hassoc, List.append_assoc]
    exact List.prefix_append _ _
  have hrfind : pyRfind (wrapJsonFence j) fenceMarker
      = ((jsonFence ++ (['\n'] ++ j ++ ['\n'])).length : Int) := by
    rw [hassoc]
    exact pyRfind_append_self _ _
  have h7 : (jsonFence.length : Int) = 7 := by decide
  unfold sanitizeResponse
  rw [if_pos hpref, hfind, hrfind]
  rw [if_pos (by simp [List.length_append, h7]; omega)]
  have hidx1 : (0 : Int) + (jsonFence.length : Int) = (jsonFence.length : Int) := by
    omega
  have hidx2 : (((jsonFence ++ (['\n'] ++ j ++ ['\n'])).length : Nat) : Int)
      = (jsonFence.length : Int) + (((['\n'] ++ j ++ ['\n']).length : Nat) : Int) := by
    rw [List.length_append]
    push_cast
    ring
  rw [hidx1, hidx2, hassoc, pySlice_middle]
  exact strip_frame allWs_newline allWs_newline j

theorem jsonFence_not_pref {r : Str} :
    jsonFence.isPrefixOf (fenceMarker ++ '\n' :: r) = false := by
  by_contra h
  rw [Bool.not_eq_false, List.isPrefixOf_iff_prefix] at h
  obtain ⟨t, ht⟩ := h
  have hj : jsonFence = fenceMarker ++ 'j' :: "son".toList := by decide
  rw [hj, List.append_assoc] at ht
  have h2 := List.append_cancel_left ht
  rw [List.cons_append, List.cons.injEq] at h2
  exact absurd h2.1 (by decide)

theorem sanitize_wrapGeneric (j : Str) :
    sanitizeResponse (wrapFence j) = strip j := by
  have hassoc := wrapFence_assoc j
  have hstrip : strip (wrapFence j) = wrapFence j := by
    rw [hassoc]
    exact strip_fenced (Or.inr rfl) _
  have hcons : wrapFence j = fenceMarker ++ '\n' :: (j ++ '\n' :: fenceMarker) := by
    unfold wrapFence
    simp [List.append_assoc]
  have hnotjson : jsonFence.isPrefixOf (strip (wrapFence j)) = false := by
    rw [hstrip, hcons]
    exact jsonFence_not_pref
  have hpref : fenceMarker.isPrefixOf (strip (wrapFence j)) = true := by
    rw [hstrip, List.isPrefixOf_iff_prefix, hassoc, List.append_assoc]
    exact List.prefix_append _ _
  have hfind : pyFind (wrapFence j) fenceMarker = 0 := by
    apply pyFind_of_pref
    rw [List.isPrefixOf_iff_prefix, hassoc, List.append_assoc]
    exact List.prefix_append _ _
  have hrfind : pyRfind (wrapFence j) fenceMarker
      = ((fenceMarker ++ (['\n'] ++ j ++ ['\n'])).length : Int) := by
    rw [hassoc]
    exact pyRfind_append_self _ _
  have h3 : (fenceMarker.length : Int) = 3 := by decide
  unfold sanitizeResponse
  rw [if_neg (by simp [hnotjson]), if_pos hpref, hfind, hrfind]
  rw [if_pos (by simp [List.length_append, h3]; omega)]
  have hidx1 : (0 : Int) + (fenceMarker.length : Int) = (fenceMarker.length : Int) := by
    omega
  have hidx2 : (((fenceMarker ++ (['\n'] ++ j ++ ['\n'])).length : Nat) : Int)
      = (fenceMarker.length : Int) + (((['\n'] ++ j ++ ['\n']).length : Nat) : Int) := by
    rw [List.length_append]
    push_cast
    ring
  rw [hidx1, hidx2, hassoc, pySlice_middle]
  exact strip_frame allWs_newline allWs_newline j

theorem sanitize_no_fence {t : Str}
    (h : fenceMarker.isPrefixOf (strip t) = false) : sanitizeResponse t = t := by
  have hjson : jsonFence.isPrefixOf (strip t) = false := by
    by_contra hh
    rw [Bool.not_eq_false, List.isPrefixOf_iff_prefix] at hh
    have hsub : fenceMarker <+: strip t :=
      List.IsPrefix.trans ⟨"json".toList, by decide⟩ hh
    rw [← List.isPrefixOf_iff_prefix, h] at hsub
    cases hsub
  unfold sanitizeResponse
  rw [if_neg (by simp [hjson]), if_neg (by simp [h])]

/-! ### The `json.loads` contract used by the round-trip claims -/

/-- Property of `json.loads`: it ignores surrounding whitespace: framing the input text
with whitespace does not change the outcome. -/
def WsFramed (loads : JsonLoads) : Prop :=
  ∀ w1 s w2, AllWs w1 → AllWs w2 → loads (w1 ++ s ++ w2) = loads s

/-- A text accepted by `json.loads` never starts, after stripping, with
the markdown fence marker: no JSON value begins with a backtick. -/
def NoFenceStart (loads : JsonLoads) : Prop :=
  ∀ s v, loads s = Except.ok v → fenceMarker.isPrefixOf (strip s) = false

theorem loads_strip_eq {loads : JsonLoads} (hw : WsFramed loads) (s : Str) :
    loads (strip s) = loads s := by
  obtain ⟨w1, w2, h1, h2, he⟩ := strip_decomp s
  conv_rhs => rw [he]
  rw [hw w1 (strip s) w2 h1 h2]

/-- A concrete miniature stand-in for `json.loads`, used to instantiate
the parameterized theorems on closed inputs: it accepts exactly the
text `7` modulo surrounding whitespace. -/
def demoParse : JsonLoads := fun s =>
  if strip s = "7".toList then Except.ok (Json.num 7)
  else Except.error "Expecting value: line 1 column 1 (char 0)".toList

theorem demoParse_wsFramed : WsFramed demoParse := by
  intro w1 s w2 h1 h2
  unfold demoParse
  rw [strip_frame h1 h2]

theorem demoParse_noFenceStart : NoFenceStart demoParse := by
  intro s v h
  unfold demoParse at h
  by_cases hs : strip s = "7".toList
  · rw [hs]
    decide
  · rw [if_neg hs] at h
    exact Except.noConfusion h

/-- C1: for every JSON text `j` (any text a whitespace-insensitive
`json.loads` accepts), the sanitizer applied to `j` wrapped in a
```` ```json ```` fence, to `j` wrapped in a generic ```` ``` ```` fence,
or to bare `j`, yields the same parsed structure as parsing `j`
directly. -/
theorem sanitizer_fence_roundtrip (loads : JsonLoads) (hw : WsFramed loads)
    (hf : NoFenceStart loads) (j : Str) (v : Json)
    (hj : loads j = Except.ok v) :
    getGeminiAnalysis loads (Except.ok (wrapJsonFence j)) = Except.ok v ∧
    getGeminiAnalysis loads (Except.ok (wrapFence j)) = Except.ok v ∧
    getGeminiAnalysis loads (Except.ok j) = Except.ok v := by
  have hstripj : loads (strip j) = Except.ok v := by
    rw [loads_strip_eq hw]
    exact hj
  refine ⟨?_, ?_, ?_⟩
  · show parseCandidate loads (sanitizeResponse (wrapJsonFence j)) = _
    rw [sanitize_wrapJson]
    unfold parseCandidate
    rw [hstripj]
  · show parseCandidate loads (sanitizeResponse (wrapFence j)) = _
    rw [sanitize_wrapGeneric]
    unfold parseCandidate
    rw [hstripj]
  · show parseCandidate loads (sanitizeResponse j) = _
    rw [sanitize_no_fence (hf j v hj)]
    unfold parseCandidate
    rw [hj]

/-- Witness for C1 at the concrete JSON text `" 7 "`. -/
theorem sanitizer_fence_roundtrip_witness :
    getGeminiAnalysis demoParse (Except.ok (wrapJsonFence " 7 ".toList))
        = Except.ok (Json.num 7) ∧
    getGeminiAnalysis demoParse (Except.ok (wrapFence " 7 ".toList))
        = Except.ok (Json.num 7) ∧
    getGeminiAnalysis demoParse (Except.ok " 7 ".toList)
        = Except.ok (Json.num 7) :=
  sanitizer_fence_roundtrip demoParse demoParse_wsFramed demoParse_noFenceStart
    " 7 ".toList (Json.num 7)
    (by unfold demoParse; rw [if_pos (by decide)])

/-- C4: a raw response that starts (after stripping) with an opening
fence marker but whose last fence-marker occurrence is not beyond the
opening falls back to deleting every occurrence of the fence markers
from the whole text, and the JSON parse is attempted on the remainder;
first conjunct for the ```` ```json ```` opening, second for the
generic ```` ``` ```` opening. -/
theorem fence_fallback_strip (t : Str) (loads : JsonLoads) :
    (jsonFence.isPrefixOf (strip t) = true →
      pyRfind t fenceMarker ≤ pyFind t jsonFence + jsonFence.length →
      sanitizeResponse t
          = strip (replaceList (replaceList t jsonFence []) fenceMarker [])
        ∧ getGeminiAnalysis loads (Except.ok t)
          = parseCandidate loads
              (strip (replaceList (replaceList t jsonFence []) fenceMarker []))) ∧
    (jsonFence.isPrefixOf (strip t) = false →
      fenceMarker.isPrefixOf (strip t) = true →
      pyRfind t fenceMarker ≤ pyFind t fenceMarker + fenceMarker.length →
      sanitizeResponse t = strip (replaceList t fenceMarker [])
        ∧ getGeminiAnalysis loads (Except.ok t)
          = parseCandidate loads (strip (replaceList t fenceMarker []))) := by
  constructor
  · intro h1 h2
    have hs : sanitizeResponse t
        = strip (replaceList (replaceList t jsonFence []) fenceMarker []) := by
      unfold sanitizeResponse
      rw [if_pos h1, if_neg (by omega)]
    refine ⟨hs, ?_⟩
    show parseCandidate loads (sanitizeResponse t) = _
    rw [hs]
  · intro h0 h1 h2
    have hs : sanitizeResponse t = strip (replaceList t fenceMarker []) := by
      unfold sanitizeResponse
      rw [if_neg (by simp [h0]), if_pos h1, if_neg (by omega)]
    refine ⟨hs, ?_⟩
    show parseCandidate loads (sanitizeResponse t) = _
    rw [hs]

/-- Witness for C4 at the unclosed fences `"```json x"` and `"``` x"`. -/
theorem fence_fallback_strip_witness :
    (sanitizeResponse "```json x".toList
        = strip (replaceList (replaceList "```json x".toList jsonFence [])
            fenceMarker [])) ∧
    (sanitizeResponse "``` x".toList
        = strip (replaceList "``` x".toList fenceMarker [])) :=
  ⟨((fence_fallback_strip "```json x".toList demoParse).1
      (by decide) (by decide)).1,
   ((fence_fallback_strip "``` x".toList demoParse).2
      (by decide) (by decide) (by decide)).1⟩

/-- C5: when the candidate text fails to parse as JSON, the analysis
fails with the exception of views.py line 236, whose message contains
the parser detail and the first 500 characters of the candidate, and
no parsed value is returned. -/
theorem parse_failure_error_detail (loads : JsonLoads) (raw e : Str)
    (h : loads (sanitizeResponse raw) = Except.error e) :
    getGeminiAnalysis loads (Except.ok raw)
        = Except.error (analysisErrorMsg e (sanitizeResponse raw)) ∧
    (∃ a b, analysisErrorMsg e (sanitizeResponse raw) = a ++ e ++ b) ∧
    (∃ a b, analysisErrorMsg e (sanitizeResponse raw)
        = a ++ pySlice (sanitizeResponse raw) 0 500 ++ b) ∧
    ∀ v, getGeminiAnalysis loads (Except.ok raw) ≠ Except.ok v := by
  have hg : getGeminiAnalysis loads (Except.ok raw)
      = Except.error (analysisErrorMsg e (sanitizeResponse raw)) := by
    show parseCandidate loads (sanitizeResponse raw) = _
    unfold parseCandidate
    rw [h]
  refine ⟨hg, ?_, ?_, ?_⟩
  · exact ⟨"AI response format error: Could not parse AI response as JSON. Details: ".toList,
      ". Raw response start: ".toList ++ pySlice (sanitizeResponse raw) 0 500
        ++ "...".toList,
      by simp [analysisErrorMsg, List.append_assoc]⟩
  · exact ⟨"AI response format error: Could not parse AI response as JSON. Details: ".toList
        ++ e ++ ". Raw response start: ".toList,
      "...".toList,
      by simp [analysisErrorMsg, List.append_assoc]⟩
  · intro v hv
    rw [hg] at hv
    exact Except.noConfusion hv

/-- Witness for C5 at the non-JSON response `"not json"`. -/
theorem parse_failure_error_detail_witness :
    getGeminiAnalysis demoParse (Except.ok "not json".toList)
        = Except.error (analysisErrorMsg
            "Expecting value: line 1 column 1 (char 0)".toList
            (sanitizeResponse "not json".toList)) ∧
    (∃ a b, analysisErrorMsg "Expecting value: line 1 column 1 (char 0)".toList
        (sanitizeResponse "not json".toList)
        = a ++ "Expecting value: line 1 column 1 (char 0)".toList ++ b) ∧
    (∃ a b, analysisErrorMsg "Expecting value: line 1 column 1 (char 0)".toList
        (sanitizeResponse "not json".toList)
        = a ++ pySlice (sanitizeResponse "not json".toList) 0 500 ++ b) ∧
    ∀ v, getGeminiAnalysis demoParse (Except.ok "not json".toList)
        ≠ Except.ok v :=
  parse_failure_error_detail demoParse "not json".toList
    "Expecting value: line 1 column 1 (char 0)".toList rfl

/-! ### Extractor helper lemmas -/

theorem docxFold_flatten (paras : List Str) (init : Str) :
    paras.foldl (fun acc p => acc ++ p ++ ['\n']) init
      = init ++ (paras.map (fun p => p ++ ['\n'])).flatten := by
  induction paras generalizing init with
  | nil => simp
  | cons p ps ih =>
    rw [List.foldl_cons, ih, List.map_cons, List.flatten_cons]
    simp [List.append_assoc]

theorem pdfFold_flatten (pages : List Str) (init : Str) :
    pages.foldl (fun acc p => if p ≠ [] then acc ++ p ++ ['\n'] else acc) init
      = init ++ (pages.map (fun p => if p = [] then [] else p ++ ['\n'])).flatten := by
  induction pages generalizing init with
  | nil => simp
  | cons p ps ih =>
    rw [List.foldl_cons, ih, List.map_cons, List.flatten_cons]
    by_cases hp : p = []
    · simp [hp]
    · simp [hp, List.append_assoc]

theorem dropWhile_idem (p : Char → Bool) (l : List Char) :
    List.dropWhile p (List.dropWhile p l) = List.dropWhile p l := by
  induction l with
  | nil => rfl
  | cons c t ih =>
    rw [List.dropWhile_cons]
    by_cases h : p c
    · rw [if_pos h]
      exact ih
    · rw [if_neg h, List.dropWhile_cons, if_neg h]

theorem lstrip_idem (s : Str) : lstrip (lstrip s) = lstrip s :=
  dropWhile_idem _ _

theorem rstrip_idem (s : Str) : rstrip (rstrip s) = rstrip s := by
  unfold rstrip
  rw [List.reverse_reverse, dropWhile_idem]

theorem rstrip_decomp (x : Str) : ∃ w, AllWs w ∧ x = rstrip x ++ w := by
  refine ⟨(List.takeWhile isSpaceCh x.reverse).reverse, ?_, ?_⟩
  · intro c hc
    exact List.mem_takeWhile_imp (List.mem_reverse.1 hc)
  · conv_lhs => rw [← List.reverse_reverse x,
      ← List.takeWhile_append_dropWhile (p := isSpaceCh) (l := x.reverse)]
    rw [List.reverse_append]
    rfl

theorem head_not_ws_of_lstrip_eq {x : Str} (h : lstrip x = x) :
    ∀ c, x.head? = some c → isSpaceCh c = false := by
  intro c hc
  cases x with
  | nil => cases hc
  | cons d t =>
    obtain rfl : d = c := by
      simpa using hc
    by_contra hws
    rw [Bool.not_eq_false] at hws
    unfold lstrip at h
    rw [List.dropWhile_cons, if_pos hws] at h
    have hle := (List.dropWhile_sublist (p := isSpaceCh) (l := t)).length_le
    have hlen := congrArg List.length h
    rw [List.length_cons] at hlen
    omega

theorem lstrip_rstrip_of {x : Str} (h : lstrip x = x) :
    lstrip (rstrip x) = rstrip x := by
  apply lstrip_eq_self
  intro c hc
  rcases em (rstrip x = []) with he | he
  · rw [he] at hc
    cases hc
  · obtain ⟨w, _, hx⟩ := rstrip_decomp x
    apply head_not_ws_of_lstrip_eq h
    rw [hx, List.head?_append_of_ne_nil _ he]
    exact hc

theorem strip_idem (s : Str) : strip (strip s) = strip s := by
  unfold strip
  rw [lstrip_rstrip_of (lstrip_idem s), rstrip_idem]

theorem rstrip_eq_nil_iff (s : Str) : rstrip s = [] ↔ AllWs s := by
  unfold rstrip
  rw [List.reverse_eq_nil_iff, List.dropWhile_eq_nil_iff]
  constructor
  · intro h c hc
    exact h c (List.mem_reverse.2 hc)
  · intro h c hc
    exact h c (List.mem_reverse.1 hc)

theorem allWs_lstrip_iff (s : Str) : AllWs (lstrip s) ↔ AllWs s := by
  constructor
  · intro h c hc
    rcases (List.mem_append.1
        ((List.takeWhile_append_dropWhile (p := isSpaceCh) (l := s)) ▸ hc))
      with h1 | h2
    · exact List.mem_takeWhile_imp h1
    · exact h c h2
  · intro h c hc
    exact h c ((List.dropWhile_sublist _).mem hc)

theorem strip_eq_nil_iff (s : Str) : strip s = [] ↔ AllWs s := by
  unfold strip
  rw [rstrip_eq_nil_iff, allWs_lstrip_iff]

/-- Concrete document libraries used to instantiate the extractor
theorems on closed inputs. -/
def demoLibs : DocLibs :=
  { pdfPages := fun _ => Except.ok ["page one".toList, [], "page two".toList]
    docxParas := fun _ => Except.ok ["alpha".toList, [], "beta".toList] }

/-- Concrete document libraries whose parsers always raise, modelling
corrupt uploads. -/
def failLibs : DocLibs :=
  { pdfPages := fun _ => Except.error "EOF marker not found".toList
    docxParas := fun _ => Except.error "File is not a zip file".toList }

/-- C6: for a `.docx` upload whose paragraphs parse, extraction returns
every paragraph text in document order, each followed by a newline
(empty paragraphs included as blank lines), the whole trimmed of
leading and trailing whitespace. -/
theorem docx_extraction_shape (libs : DocLibs) (f : UploadedFile)
    (paras : List Str)
    (hext : pyLower (splitextExt f.name) = ".docx".toList)
    (hdoc : libs.docxParas f.content = Except.ok paras) :
    extractText libs f
      = some (strip ((paras.map (fun p => p ++ ['\n'])).flatten)) := by
  unfold extractText
  rw [hext, if_neg (by decide), if_pos rfl, hdoc]
  show some (strip (List.foldl (fun acc p => acc ++ p ++ ['\n']) [] paras)) = _
  rw [docxFold_flatten, List.nil_append]

/-- Witness for C6: paragraphs `["alpha", "", "beta"]` come back one
per line with the empty paragraph as a blank line. -/
theorem docx_extraction_shape_witness :
    extractText demoLibs ⟨"cv.docx".toList, "bytes".toList⟩
        = some (strip (((["alpha".toList, [], "beta".toList] : List Str).map
            (fun p => p ++ ['\n'])).flatten)) ∧
    extractText demoLibs ⟨"cv.docx".toList, "bytes".toList⟩
        = some "alpha\n\nbeta".toList :=
  ⟨docx_extraction_shape demoLibs ⟨"cv.docx".toList, "bytes".toList⟩
      ["alpha".toList, [], "beta".toList] (by decide) rfl,
    by decide⟩

/-- C7: for a `.pdf` upload whose pages parse, extraction concatenates
the page texts in page order, each non-empty page text followed by a
newline and empty page texts contributing nothing, the whole trimmed;
and when some page text has a non-whitespace character the result is
not the empty string. -/
theorem pdf_extraction_shape (libs : DocLibs) (f : UploadedFile)
    (pages : List Str)
    (hext : pyLower (splitextExt f.name) = ".pdf".toList)
    (hdoc : libs.pdfPages f.content = Except.ok pages) :
    extractText libs f
      = some (strip ((pages.map
          (fun p => if p = [] then [] else p ++ ['\n'])).flatten)) ∧
    ((∃ p ∈ pages, ∃ c ∈ p, isSpaceCh c = false) →
      extractText libs f ≠ some []) := by
  have hmain : extractText libs f
      = some (strip ((pages.map
          (fun p => if p = [] then [] else p ++ ['\n'])).flatten)) := by
    unfold extractText
    rw [hext, if_pos rfl, hdoc]
    show some (strip (List.foldl
      (fun acc p => if p ≠ [] then acc ++ p ++ ['\n'] else acc) [] pages)) = _
    rw [pdfFold_flatten, List.nil_append]
  refine ⟨hmain, ?_⟩
  rintro ⟨p, hp, c, hc, hcws⟩ habs
  rw [hmain] at habs
  have hnil := Option.some.inj habs
  rw [strip_eq_nil_iff] at hnil
  have hpne : p ≠ [] := List.ne_nil_of_mem hc
  have hmem : c ∈ (pages.map (fun p => if p = [] then [] else p ++ ['\n'])).flatten := by
    rw [List.mem_flatten]
    refine ⟨p ++ ['\n'], ?_, List.mem_append_left _ hc⟩
    have h1 := List.mem_map_of_mem (fun q => if q = [] then [] else q ++ ['\n']) hp
    simpa [hpne] using h1
  rw [hnil c hmem] at hcws
  cases hcws

/-- Witness for C7 at pages `["page one", "", "page two"]`. -/
theorem pdf_extraction_shape_witness :
    (extractText demoLibs ⟨"cv.pdf".toList, "bytes".toList⟩
        = some (strip (((["page one".toList, [], "page two".toList] : List Str).map
            (fun p => if p = [] then [] else p ++ ['\n'])).flatten)) ∧
      ((∃ p ∈ (["page one".toList, [], "page two".toList] : List Str),
          ∃ c ∈ p, isSpaceCh c = false) →
        extractText demoLibs ⟨"cv.pdf".toList, "bytes".toList⟩ ≠ some [])) ∧
    extractText demoLibs ⟨"cv.pdf".toList, "bytes".toList⟩
        = some "page one\npage two".toList :=
  ⟨pdf_extraction_shape demoLibs ⟨"cv.pdf".toList, "bytes".toList⟩
      ["page one".toList, [], "page two".toList] (by decide) rfl,
    by decide⟩

/-- C8: a filename whose lowercased extension is neither `.pdf` nor
`.docx` makes extraction fail at once, and the result does not depend
on the document-parsing libraries at all (no parsing is attempted on
the content). -/
theorem unsupported_extension_fails (libs : DocLibs) (f : UploadedFile)
    (h1 : pyLower (splitextExt f.name) ≠ ".pdf".toList)
    (h2 : pyLower (splitextExt f.name) ≠ ".docx".toList) :
    extractText libs f = none ∧
    ∀ libs2 : DocLibs, extractText libs2 f = extractText libs f := by
  have hnone : ∀ libs2 : DocLibs, extractText libs2 f = none := by
    intro libs2
    unfold extractText
    rw [if_neg h1, if_neg h2]
  exact ⟨hnone libs, fun libs2 => by rw [hnone libs2, hnone libs]⟩

/-- Witness for C8 at the filename `resume.txt`. -/
theorem unsupported_extension_fails_witness :
    extractText demoLibs ⟨"resume.txt".toList, "bytes".toList⟩ = none ∧
    ∀ libs2 : DocLibs,
      extractText libs2 ⟨"resume.txt".toList, "bytes".toList⟩
        = extractText demoLibs ⟨"resume.txt".toList, "bytes".toList⟩ :=
  unsupported_extension_fails demoLibs ⟨"resume.txt".toList, "bytes".toList⟩
    (by decide) (by decide)

/-- C9: an exception raised by the document parser on the bytes of a
supported upload is caught inside the extractor and converted to the
failure signal `none`, for the PDF path and the DOCX path alike. -/
theorem parse_exception_caught (libs : DocLibs) (f : UploadedFile) (e : Str) :
    (pyLower (splitextExt f.name) = ".pdf".toList →
      libs.pdfPages f.content = Except.error e → extractText libs f = none) ∧
    (pyLower (splitextExt f.name) = ".docx".toList →
      libs.docxParas f.content = Except.error e → extractText libs f = none) := by
  constructor
  · intro hext herr
    unfold extractText
    rw [hext, if_pos rfl, herr]
  · intro hext herr
    unfold extractText
    rw [hext, if_neg (by decide), if_pos rfl, herr]

/-- Witness for C9 with always-raising parsers on `bad.pdf` and
`bad.docx`. -/
theorem parse_exception_caught_witness :
    extractText failLibs ⟨"bad.pdf".toList, "bytes".toList⟩ = none ∧
    extractText failLibs ⟨"bad.docx".toList, "bytes".toList⟩ = none :=
  ⟨(parse_exception_caught failLibs ⟨"bad.pdf".toList, "bytes".toList⟩
      "EOF marker not found".toList).1 (by decide) rfl,
    (parse_exception_caught failLibs ⟨"bad.docx".toList, "bytes".toList⟩
      "File is not a zip file".toList).2 (by decide) rfl⟩

/-! ### Handler lemmas and claims -/

theorem strFind_single_none {c : Char} {s : Str} (h : c ∉ s) :
    strFind [c] s = none := by
  induction s with
  | nil => simp [strFind, List.isPrefixOf]
  | cons d t ih =>
    have hcd : c ≠ d := fun hh => h (hh ▸ List.mem_cons_self d t)
    unfold strFind
    rw [if_neg (by simp [List.isPrefixOf, hcd]),
      ih (fun hm => h (List.mem_cons_of_mem _ hm))]
    rfl

theorem pyRfind_ge_neg_one (s pat : Str) : -1 ≤ pyRfind s pat := by
  unfold pyRfind
  cases h : strRfind pat s with
  | none => simp
  | some n =>
    show -1 ≤ (n : Int)
    omega

theorem pyRfind_single_none {c : Char} {s : Str} (h : c ∉ s) :
    pyRfind s [c] = -1 := by
  unfold pyRfind strRfind
  rw [show ([c] : Str).reverse = [c] from rfl,
    strFind_single_none (fun hm => h (List.mem_reverse.1 hm))]
  rfl

/-- C2: the extractor only ever succeeds with an already-trimmed text,
and an extraction outcome that is falsy in Python (`None` or the empty
string) makes the handler answer the could-not-extract client error, so
empty text never reaches the analysis step. -/
theorem extractor_empty_is_failure (loads : JsonLoads) (libs : DocLibs)
    (callResult : Except Str Str) (req : AnalyzeRequest) (f : UploadedFile)
    (hreq : req.resume_file = some f) :
    (∀ t, extractText libs f = some t → strip t = t) ∧
    ((extractText libs f = none ∨ extractText libs f = some []) →
      postHandler loads libs callResult req = extractFailResp) := by
  constructor
  · intro t ht
    unfold extractText at ht
    by_cases h1 : pyLower (splitextExt f.name) = ".pdf".toList
    · rw [if_pos h1] at ht
      cases hp : libs.pdfPages f.content with
      | error e =>
        rw [hp] at ht
        exact Option.noConfusion ht
      | ok pages =>
        rw [hp] at ht
        rw [← Option.some.inj ht]
        exact strip_idem _
    · rw [if_neg h1] at ht
      by_cases h2 : pyLower (splitextExt f.name) = ".docx".toList
      · rw [if_pos h2] at ht
        cases hp : libs.docxParas f.content with
        | error e =>
          rw [hp] at ht
          exact Option.noConfusion ht
        | ok paras =>
          rw [hp] at ht
          rw [← Option.some.inj ht]
          exact strip_idem _
      · rw [if_neg h2] at ht
        exact Option.noConfusion ht
  · intro h
    obtain ⟨rf, jd, jc, sr⟩ := req
    replace hreq : rf = some f := hreq
    subst hreq
    unfold postHandler
    show (if extractText libs f = none ∨ extractText libs f = some []
        then extractFailResp
        else match getGeminiAnalysis loads callResult with
          | .ok report => successResp report
          | .error e => analysisFailResp e) = extractFailResp
    rw [if_pos h]

/-- Witness for C2: a DOCX with a single all-whitespace paragraph
extracts to the empty string, and the handler answers the 400
could-not-extract response. -/
theorem extractor_empty_is_failure_witness :
    (∀ t, extractText ⟨fun _ => Except.error [], fun _ => Except.ok ["  ".toList]⟩
        ⟨"blank.docx".toList, "bytes".toList⟩ = some t → strip t = t) ∧
    ((extractText ⟨fun _ => Except.error [], fun _ => Except.ok ["  ".toList]⟩
        ⟨"blank.docx".toList, "bytes".toList⟩ = none ∨
      extractText ⟨fun _ => Except.error [], fun _ => Except.ok ["  ".toList]⟩
        ⟨"blank.docx".toList, "bytes".toList⟩ = some []) →
      postHandler demoParse
        ⟨fun _ => Except.error [], fun _ => Except.ok ["  ".toList]⟩
        (Except.ok "7".toList)
        ⟨some ⟨"blank.docx".toList, "bytes".toList⟩, none, none, none⟩
        = extractFailResp) ∧
    postHandler demoParse
      ⟨fun _ => Except.error [], fun _ => Except.ok ["  ".toList]⟩
      (Except.ok "7".toList)
      ⟨some ⟨"blank.docx".toList, "bytes".toList⟩, none, none, none⟩
      = extractFailResp := by
  have h := extractor_empty_is_failure demoParse
    ⟨fun _ => Except.error [], fun _ => Except.ok ["  ".toList]⟩
    (Except.ok "7".toList)
    ⟨some ⟨"blank.docx".toList, "bytes".toList⟩, none, none, none⟩
    ⟨"blank.docx".toList, "bytes".toList⟩ rfl
  exact ⟨h.1, h.2, h.2 (Or.inr (by decide))⟩

/-- A concrete miniature `json.loads` stand-in accepting exactly one
object text whose score field lies outside the documented 0-100 range
and whose other keys are all missing. -/
def demoObjParse : JsonLoads := fun s =>
  if strip s = "\x7b\"overall_fit_score\": 250\x7d".toList then
    Except.ok (Json.obj [("overall_fit_score".toList, Json.num 250)])
  else Except.error "Expecting value: line 1 column 1 (char 0)".toList

/-- C3: whatever JSON value the candidate text parses to is returned
by the analysis unchanged, with no schema validation and no clamping
of score fields, and the handler wraps exactly that value in the 200
success response. -/
theorem report_returned_verbatim (loads : JsonLoads) (libs : DocLibs)
    (req : AnalyzeRequest) (f : UploadedFile) (t raw : Str) (v : Json)
    (hreq : req.resume_file = some f)
    (hex : extractText libs f = some t) (ht : t ≠ [])
    (hparse : loads (sanitizeResponse raw) = Except.ok v) :
    getGeminiAnalysis loads (Except.ok raw) = Except.ok v ∧
    postHandler loads libs (Except.ok raw) req = successResp v := by
  have hg : getGeminiAnalysis loads (Except.ok raw) = Except.ok v := by
    show parseCandidate loads (sanitizeResponse raw) = _
    unfold parseCandidate
    rw [hparse]
  refine ⟨hg, ?_⟩
  obtain ⟨rf, jd, jc, sr⟩ := req
  replace hreq : rf = some f := hreq
  subst hreq
  unfold postHandler
  show (if extractText libs f = none ∨ extractText libs f = some []
      then extractFailResp
      else match getGeminiAnalysis loads (Except.ok raw) with
        | .ok report => successResp report
        | .error e => analysisFailResp e) = successResp v
  rw [if_neg (by simp [hex, ht]), hg]

/-- Witness for C3: an out-of-range score object is passed through to
the 200 response untouched. -/
theorem report_returned_verbatim_witness :
    getGeminiAnalysis demoObjParse
        (Except.ok "\x7b\"overall_fit_score\": 250\x7d".toList)
      = Except.ok (Json.obj [("overall_fit_score".toList, Json.num 250)]) ∧
    postHandler demoObjParse demoLibs
        (Except.ok "\x7b\"overall_fit_score\": 250\x7d".toList)
        ⟨some ⟨"cv.docx".toList, "bytes".toList⟩, none, none, none⟩
      = successResp (Json.obj [("overall_fit_score".toList, Json.num 250)]) :=
  report_returned_verbatim demoObjParse demoLibs
    ⟨some ⟨"cv.docx".toList, "bytes".toList⟩, none, none, none⟩
    ⟨"cv.docx".toList, "bytes".toList⟩
    "alpha\n\nbeta".toList
    "\x7b\"overall_fit_score\": 250\x7d".toList
    (Json.obj [("overall_fit_score".toList, Json.num 250)])
    rfl (by decide) (by decide) rfl

/-- C10: a filename with no dot yields the empty extension from
`os.path.splitext`, which is unsupported, so extraction fails and the
handler answers the could-not-extract client error instead of raising. -/
theorem no_extension_client_error (loads : JsonLoads) (libs : DocLibs)
    (callResult : Except Str Str) (req : AnalyzeRequest) (f : UploadedFile)
    (hreq : req.resume_file = some f) (hdot : '.' ∉ f.name) :
    splitextExt f.name = [] ∧ extractText libs f = none ∧
    postHandler loads libs callResult req = extractFailResp := by
  have hsplit : splitextExt f.name = [] := by
    unfold splitextExt
    rw [show (".".toList : Str) = ['.'] from rfl, pyRfind_single_none hdot]
    rw [if_neg]
    have := pyRfind_ge_neg_one f.name "/".toList
    omega
  have hnone : extractText libs f = none := by
    unfold extractText
    rw [hsplit, if_neg (by decide), if_neg (by decide)]
  refine ⟨hsplit, hnone, ?_⟩
  obtain ⟨rf, jd, jc, sr⟩ := req
  replace hreq : rf = some f := hreq
  subst hreq
  unfold postHandler
  show (if extractText libs f = none ∨ extractText libs f = some []
      then extractFailResp
      else match getGeminiAnalysis loads callResult with
        | .ok report => successResp report
        | .error e => analysisFailResp e) = extractFailResp
  rw [if_pos (Or.inl hnone)]

/-- Witness for C10 at the dotless filename `resume`. -/
theorem no_extension_client_error_witness :
    splitextExt "resume".toList = [] ∧
    extractText demoLibs ⟨"resume".toList, "bytes".toList⟩ = none ∧
    postHandler demoParse demoLibs (Except.ok "7".toList)
        ⟨some ⟨"resume".toList, "bytes".toList⟩, none, none, none⟩
      = extractFailResp :=
  no_extension_client_error demoParse demoLibs (Except.ok "7".toList)
    ⟨some ⟨"resume".toList, "bytes".toList⟩, none, none, none⟩
    ⟨"resume".toList, "bytes".toList⟩ rfl (by decide)
